import Mathlib

/-
Verification of the collaborative-editor backend: a shallow embedding of
backend/documents/operational_transform.py (class OperationalTransform)
and of the submit path of backend/documents/consumers.py
(DocumentConsumer.apply_operation_with_transform together with
Document.increment_version from backend/documents/models.py).

Conventions of the embedding:
  - A Python operation dict arriving from a client may miss keys; it is
    modelled as RawOp whose fields are Option values.  The keys
    client_version and deleted_content, which some call sites read, are
    carried as extra fields; _normalize_operation builds a fresh dict with
    exactly the four keys type, position, content, length, so Op (the
    normalized form) has only those four fields and normalization drops
    the extras, exactly as the source does.
  - Python integers are Int; document text is List Char; Python
    saturating patterns max(0, ...) are written out explicitly.
  - The document state owned by the consumer (content, version and the
    Operation rows of the log) is HubState; submit embeds
    apply_operation_with_transform: it transforms against the pending
    tail, applies, increments the version, and appends to the log; when
    the dict misses the type or position key, Operation.objects.create
    raises, which in the source happens after content and version were
    already mutated, so the failed submit keeps those mutations but does
    not append to the log and neither broadcasts nor acks.
-/

/-- Client operation dict as received on the wire: every key may be absent. -/
structure RawOp where
  type : Option String
  position : Option Int
  content : Option (List Char)
  length : Option Int
  clientVersion : Option Int
  deletedContent : Option (List Char)
deriving DecidableEq

/-- Normalized operation: the four keys _normalize_operation always emits. -/
structure Op where
  type : String
  position : Int
  content : List Char
  length : Int
deriving DecidableEq

/-- View a normalized operation as a full dict (all four keys present). -/
def Op.toRaw (o : Op) : RawOp :=
  { type := some o.type, position := some o.position, content := some o.content,
    length := some o.length, clientVersion := none, deletedContent := none }

/-- OperationalTransform._normalize_operation: fill missing keys with the
defaults retain, 0, empty string, 0, and for an insert whose length is 0
set length to the length of the content. -/
def normalizeOperation (op : RawOp) : Op :=
  let n : Op :=
    { type := op.type.getD "retain", position := op.position.getD 0,
      content := op.content.getD [], length := op.length.getD 0 }
  if n.type = "insert" ∧ n.length = 0 then
    { n with length := (n.content.length : Int) }
  else n

/-- OperationalTransform._transform_insert_insert. -/
def transformInsertInsert (op1 op2 : Op) : Op × Op :=
  if op1.position ≤ op2.position then
    (op1, { op2 with position := op2.position + (op1.content.length : Int) })
  else
    ({ op1 with position := op1.position + (op2.content.length : Int) }, op2)

/-- OperationalTransform._handle_overlapping_deletes. -/
def handleOverlappingDeletes (op1 op2 : Op) : Op × Op :=
  let op1End := op1.position + op1.length
  let op2End := op2.position + op2.length
  let overlapStart := max op1.position op2.position
  let overlapEnd := min op1End op2End
  let overlapLength := max 0 (overlapEnd - overlapStart)
  if op1.position < op2.position then
    ({ op1 with length := op2.position - op1.position },
     { op2 with position := op1.position, length := max 0 (op2.length - overlapLength) })
  else
    ({ op1 with position := op2.position, length := max 0 (op1.length - overlapLength) },
     { op2 with length := op1.position - op2.position })

/-- OperationalTransform._transform_delete_delete. -/
def transformDeleteDelete (op1 op2 : Op) : Op × Op :=
  let op1End := op1.position + op1.length
  let op2End := op2.position + op2.length
  if op1End ≤ op2.position then
    (op1, { op2 with position := op2.position - op1.length })
  else if op2End ≤ op1.position then
    ({ op1 with position := op1.position - op2.length }, op2)
  else
    handleOverlappingDeletes op1 op2

/-- OperationalTransform._transform_insert_delete. -/
def transformInsertDelete (insertOp deleteOp : Op) : Op × Op :=
  let deleteEnd := deleteOp.position + deleteOp.length
  if insertOp.position ≤ deleteOp.position then
    (insertOp, { deleteOp with position := deleteOp.position + (insertOp.content.length : Int) })
  else if insertOp.position ≥ deleteEnd then
    ({ insertOp with position := insertOp.position - deleteOp.length }, deleteOp)
  else
    ({ insertOp with position := deleteOp.position },
     { deleteOp with length := deleteOp.length + (insertOp.content.length : Int) })

/-- Dispatch part of OperationalTransform.transform, after both arguments
were normalized. -/
def transformOps (op1 op2 : Op) : Op × Op :=
  if op1.type = "insert" ∧ op2.type = "insert" then
    transformInsertInsert op1 op2
  else if op1.type = "delete" ∧ op2.type = "delete" then
    transformDeleteDelete op1 op2
  else if op1.type = "insert" ∧ op2.type = "delete" then
    transformInsertDelete op1 op2
  else if op1.type = "delete" ∧ op2.type = "insert" then
    ((transformInsertDelete op2 op1).2, (transformInsertDelete op2 op1).1)
  else
    (op1, op2)

/-- OperationalTransform.transform: normalize both operations, then
dispatch on the pair of types. -/
def transform (op1 op2 : RawOp) : Op × Op :=
  transformOps (normalizeOperation op1) (normalizeOperation op2)

/-- OperationalTransform.apply_operation: clamp the position into the
content, splice for insert, excise a clamped range for delete, return the
content unchanged for retain and for unknown types. -/
def applyOperation (content : List Char) (operation : RawOp) : List Char :=
  let op := normalizeOperation operation
  if op.type = "insert" then
    let pos := max 0 (min op.position (content.length : Int))
    content.take pos.toNat ++ op.content ++ content.drop pos.toNat
  else if op.type = "delete" then
    let pos := max 0 (min op.position (content.length : Int))
    let endPos := max pos (min (pos + op.length) (content.length : Int))
    content.take pos.toNat ++ content.drop endPos.toNat
  else if op.type = "retain" then
    content
  else
    content

/-- OperationalTransform.invert_operation.  The delete branch of the
source reads the key deleted_content from the dict returned by
_normalize_operation, and that dict carries exactly the four keys type,
position, content, length, so the lookup always falls back to the empty
string. -/
def invertOperation (operation : RawOp) : Op :=
  let op := normalizeOperation operation
  if op.type = "insert" then
    { type := "delete", position := op.position, content := [],
      length := (op.content.length : Int) }
  else if op.type = "delete" then
    { type := "insert", position := op.position, content := [], length := 0 }
  else
    op

/-- OperationalTransform.validate_operation. -/
def validateOperation (operation : RawOp) (contentLength : Int) : Bool :=
  let op := normalizeOperation operation
  if op.position < 0 ∨ op.position > contentLength then
    false
  else if op.type = "delete" ∧ op.position + op.length > contentLength then
    false
  else
    true

/-- Row of the Operation table: the stored fields of one accepted edit. -/
structure LogEntry where
  op : Op
  userId : Int
  version : Int
deriving DecidableEq

/-- In-memory document state of the consumer: content and version of the
Document row plus the Operation rows, in insertion (timestamp) order. -/
structure HubState where
  content : List Char
  version : Int
  log : List LogEntry
deriving DecidableEq

/-- Outcome of one submit: the mutated state, whether the operation was
broadcast to the other subscribers, and the version the ack carried. -/
structure SubmitResult where
  state : HubState
  broadcast : Bool
  ackVersion : Option Int
deriving DecidableEq

/-- Pending tail used by apply_operation_with_transform: the Operation
rows with version strictly greater than the base, authored by another
user, in timestamp order. -/
def pendingFor (st : HubState) (userId : Int) (base : Int) : List Op :=
  (st.log.filter fun e => decide (base < e.version ∧ e.userId ≠ userId)).map fun e => e.op

/-- Fold of OperationalTransform.transform over the pending tail, keeping
the first component, exactly as the loop in
apply_operation_with_transform does. -/
def foldTransform (operation : RawOp) (pending : List Op) : RawOp :=
  pending.foldl (fun acc p => (transform acc p.toRaw).1.toRaw) operation

/-- Fields Operation.objects.create reads off the transformed dict: type
and position by direct indexing, content and length with the defaults of
dict.get. -/
def storedOp (r : RawOp) : Op :=
  { type := r.type.getD "", position := r.position.getD 0,
    content := r.content.getD [], length := r.length.getD 0 }

/-- DocumentConsumer.apply_operation_with_transform: compute the pending
tail from the client_version key (defaulting to the current version),
fold transform over it, apply the result to the content, increment the
version, then append the stored row.  When the transformed dict misses
the type or position key the append raises after content and version were
already mutated; the caller then neither broadcasts nor acks. -/
def submit (st : HubState) (userId : Int) (operation : RawOp) : SubmitResult :=
  let base := operation.clientVersion.getD st.version
  let pending := pendingFor st userId base
  let transformedOp := foldTransform operation pending
  let newContent := applyOperation st.content transformedOp
  let newVersion := st.version + 1
  if transformedOp.type.isSome && transformedOp.position.isSome then
    { state := { content := newContent, version := newVersion,
                 log := st.log ++ [{ op := storedOp transformedOp, userId := userId,
                                     version := newVersion }] },
      broadcast := true, ackVersion := some newVersion }
  else
    { state := { content := newContent, version := newVersion, log := st.log },
      broadcast := false, ackVersion := none }

/-- Document with empty content, version 0 and empty log. -/
def initState : HubState := { content := [], version := 0, log := [] }

/-- Run a list of submits, each given as author id and raw operation. -/
def runSubmits (st : HubState) (ops : List (Int × RawOp)) : HubState :=
  ops.foldl (fun s p => (submit s p.1 p.2).state) st

/-- Every submit of the sequence succeeded (was broadcast and acked). -/
def allOk : HubState → List (Int × RawOp) → Bool
  | _, [] => true
  | st, p :: rest =>
      (submit st p.1 p.2).broadcast && allOk (submit st p.1 p.2).state rest

/-- Left fold of apply_operation over the logged operations, starting
from the empty string. -/
def foldApply (log : List LogEntry) : List Char :=
  log.foldl (fun c e => applyOperation c e.op.toRaw) []

/-- Shorthand for a client operation dict with the usual keys. -/
def mkRaw (t : Option String) (p : Option Int) (c : Option (List Char))
    (l : Option Int) (cv : Option Int) : RawOp :=
  { type := t, position := p, content := c, length := l,
    clientVersion := cv, deletedContent := none }
-- appended to Spec2Proof for testing

/-- Normalization acts as the identity on a full dict unless the
operation is an insert with length 0. -/
theorem normalize_toRaw (o : Op) (h : ¬(o.type = "insert" ∧ o.length = 0)) :
    normalizeOperation o.toRaw = o := by
  simp [normalizeOperation, Op.toRaw, h]

/-- Normalization of a full dict keeps the type field. -/
theorem normalize_toRaw_type (o : Op) : (normalizeOperation o.toRaw).type = o.type := by
  simp [normalizeOperation, Op.toRaw]
  split <;> rfl

/-- C1: the convergence property fails on the code at two inserts at
position 0 into the empty content: processing a first yields XY while
processing b first yields YX, although the claim requires both orders to
agree. -/
theorem c1_convergence_divergence :
    applyOperation (applyOperation [] (mkRaw (some "insert") (some 0) (some ['X']) none none))
        (transform (mkRaw (some "insert") (some 0) (some ['X']) none none)
          (mkRaw (some "insert") (some 0) (some ['Y']) none none)).2.toRaw = ['X', 'Y'] ∧
    applyOperation (applyOperation [] (mkRaw (some "insert") (some 0) (some ['Y']) none none))
        (transform (mkRaw (some "insert") (some 0) (some ['Y']) none none)
          (mkRaw (some "insert") (some 0) (some ['X']) none none)).2.toRaw = ['Y', 'X'] ∧
    (['X', 'Y'] : List Char) ≠ ['Y', 'X'] := by
  refine ⟨rfl, rfl, by decide⟩

/-- C4: the invert round trip fails on the code for a delete that carries
the removed text in its content field: invert_operation reads the key
deleted_content off the normalized dict, which never carries it, so the
inverse of the delete inserts the empty string and the round trip loses
the deleted text. -/
theorem c4_invert_delete_eval :
    invertOperation (mkRaw (some "delete") (some 0) (some ['a']) (some 1) none) =
      { type := "insert", position := 0, content := [], length := 0 } ∧
    invertOperation (⟨some "delete", some 0, some ['a'], some 1, none, some ['a']⟩ : RawOp) =
      { type := "insert", position := 0, content := [], length := 0 } ∧
    applyOperation
        (applyOperation ['a', 'b'] (mkRaw (some "delete") (some 0) (some ['a']) (some 1) none))
        (invertOperation (mkRaw (some "delete") (some 0) (some ['a']) (some 1) none)).toRaw
      = ['b'] ∧
    (['b'] : List Char) ≠ ['a', 'b'] := by
  refine ⟨rfl, rfl, rfl, by decide⟩

/-- C10: apply_operation returns the content unchanged for every
operation whose normalized type is neither insert nor delete, including
retain and unrecognized type strings. -/
theorem c10_apply_unknown_type (C : List Char) (r : RawOp)
    (h1 : (normalizeOperation r).type ≠ "insert")
    (h2 : (normalizeOperation r).type ≠ "delete") :
    applyOperation C r = C := by
  simp [applyOperation, h1, h2]

theorem c10_apply_unknown_type_witness :
    applyOperation ['a'] (mkRaw (some "banana") (some 0) none none none) = ['a'] :=
  c10_apply_unknown_type ['a'] (mkRaw (some "banana") (some 0) none none none)
    (by decide) (by decide)

/-- C8 counterexample: normalization passes an unrecognized type string
through unchanged, and keeps a nonzero insert length that differs from
the length of the content, so both stated invariants fail. -/
theorem c8_counterexample :
    (normalizeOperation (mkRaw (some "banana") none none none none)).type ≠ "insert" ∧
    (normalizeOperation (mkRaw (some "banana") none none none none)).type ≠ "delete" ∧
    (normalizeOperation (mkRaw (some "banana") none none none none)).type ≠ "retain" ∧
    (normalizeOperation (mkRaw (some "insert") none (some ['a', 'b']) (some 5) none)).type
      = "insert" ∧
    (normalizeOperation (mkRaw (some "insert") none (some ['a', 'b']) (some 5) none)).length ≠
      ((normalizeOperation (mkRaw (some "insert") none (some ['a', 'b']) (some 5) none)).content.length : Int) := by
  decide

/-- C8 amended: when the type key is absent or one of the three known
kinds, the normalized kind is one of insert, delete, retain; and when the
kind is insert and the length key is absent or 0, the normalized length
equals the length of the content. -/
theorem c8_normalize_invariants (r : RawOp)
    (ht : r.type = none ∨ r.type = some "insert" ∨ r.type = some "delete" ∨
      r.type = some "retain") :
    ((normalizeOperation r).type = "insert" ∨ (normalizeOperation r).type = "delete" ∨
      (normalizeOperation r).type = "retain") ∧
    ((normalizeOperation r).type = "insert" → (r.length = none ∨ r.length = some 0) →
      (normalizeOperation r).length = ((normalizeOperation r).content.length : Int)) := by
  constructor
  · rcases ht with h | h | h | h <;> simp [normalizeOperation, h] <;> split <;> simp
  · intro hins hl
    rcases hl with h | h <;>
      (simp_all [normalizeOperation]; split <;> simp_all)

theorem c8_normalize_invariants_witness :
    ((normalizeOperation (mkRaw (some "insert") none (some ['a', 'b']) none none)).type = "insert" ∨
      (normalizeOperation (mkRaw (some "insert") none (some ['a', 'b']) none none)).type = "delete" ∨
      (normalizeOperation (mkRaw (some "insert") none (some ['a', 'b']) none none)).type = "retain") ∧
    (normalizeOperation (mkRaw (some "insert") none (some ['a', 'b']) none none)).length =
      ((normalizeOperation (mkRaw (some "insert") none (some ['a', 'b']) none none)).content.length : Int) :=
  ⟨(c8_normalize_invariants _ (by decide)).1,
   (c8_normalize_invariants _ (by decide)).2 (by decide) (by decide)⟩

/-- Normalization of a full dict keeps the position field. -/
theorem normalize_toRaw_position (o : Op) :
    (normalizeOperation o.toRaw).position = o.position := by
  simp only [normalizeOperation, Op.toRaw]
  split <;> rfl

/-- Normalization of a full dict keeps the content field. -/
theorem normalize_toRaw_content (o : Op) :
    (normalizeOperation o.toRaw).content = o.content := by
  simp only [normalizeOperation, Op.toRaw]
  split <;> rfl

/-- C5: apply_operation is total, and its output length is the content
length plus the inserted length for an insert, and the content length
minus the clamped deleted span for a delete whose position lies inside
the content and whose length is non-negative. -/
theorem c5_apply_length (C : List Char) (o : Op) :
    (o.type = "insert" →
      ((applyOperation C o.toRaw).length : Int) = (C.length : Int) + (o.content.length : Int)) ∧
    (o.type = "delete" → 0 ≤ o.position → o.position ≤ (C.length : Int) → 0 ≤ o.length →
      ((applyOperation C o.toRaw).length : Int) =
        (C.length : Int) - min o.length ((C.length : Int) - o.position)) := by
  constructor
  · intro ht
    have h1 : (normalizeOperation o.toRaw).type = "insert" := by
      rw [normalize_toRaw_type, ht]
    simp [applyOperation, h1, normalize_toRaw_position, normalize_toRaw_content]
    omega
  · intro ht hp1 hp2 hl
    have h1 : (normalizeOperation o.toRaw).type = "delete" := by
      rw [normalize_toRaw_type, ht]
    have h2 : ¬((normalizeOperation o.toRaw).type = "insert") := by
      rw [h1]; decide
    have h3 : (normalizeOperation o.toRaw).length = o.length := by
      have := normalize_toRaw o (by rw [ht]; simp)
      rw [this]
    simp [applyOperation, h1, h2, h3, normalize_toRaw_position]
    omega

theorem c5_apply_length_witness :
    ((applyOperation ['a', 'b'] (Op.mk "insert" 1 ['X'] 1).toRaw).length : Int) =
      ((['a', 'b'] : List Char).length : Int) + (((['X'] : List Char)).length : Int) ∧
    ((applyOperation ['a', 'b'] (Op.mk "delete" 0 [] 1).toRaw).length : Int) =
      ((['a', 'b'] : List Char).length : Int) -
        min 1 (((['a', 'b'] : List Char).length : Int) - 0) :=
  ⟨(c5_apply_length ['a', 'b'] (Op.mk "insert" 1 ['X'] 1)).1 rfl,
   (c5_apply_length ['a', 'b'] (Op.mk "delete" 0 [] 1)).2 rfl (by decide) (by decide) (by decide)⟩

/-- Core of C9, stated on the dispatch after normalization: each of the
four transformation rules keeps positions and lengths non-negative. -/
theorem transformOps_nonneg (a b : Op)
    (ha1 : 0 ≤ a.position) (ha2 : 0 ≤ a.length)
    (hb1 : 0 ≤ b.position) (hb2 : 0 ≤ b.length) :
    (0 ≤ (transformOps a b).1.position ∧ 0 ≤ (transformOps a b).1.length) ∧
    (0 ≤ (transformOps a b).2.position ∧ 0 ≤ (transformOps a b).2.length) := by
  simp only [transformOps, transformInsertInsert, transformDeleteDelete,
    handleOverlappingDeletes, transformInsertDelete]
  split_ifs <;> dsimp only <;> omega

/-- Normalization keeps a non-negative position non-negative. -/
theorem normalize_position_nonneg (r : RawOp) (h : 0 ≤ r.position.getD 0) :
    0 ≤ (normalizeOperation r).position := by
  simp only [normalizeOperation]
  split <;> exact h

/-- Normalization keeps a non-negative length non-negative. -/
theorem normalize_length_nonneg (r : RawOp) (h : 0 ≤ r.length.getD 0) :
    0 ≤ (normalizeOperation r).length := by
  simp only [normalizeOperation]
  split
  · positivity
  · exact h

/-- C9: transform keeps positions and lengths non-negative; every
subtraction in the four rules is either guarded by its branch condition
or wrapped in a saturating max with 0. -/
theorem c9_transform_nonneg (r s : RawOp)
    (hr1 : 0 ≤ (normalizeOperation r).position) (hr2 : 0 ≤ (normalizeOperation r).length)
    (hs1 : 0 ≤ (normalizeOperation s).position) (hs2 : 0 ≤ (normalizeOperation s).length) :
    (0 ≤ (transform r s).1.position ∧ 0 ≤ (transform r s).1.length) ∧
    (0 ≤ (transform r s).2.position ∧ 0 ≤ (transform r s).2.length) :=
  transformOps_nonneg (normalizeOperation r) (normalizeOperation s) hr1 hr2 hs1 hs2

theorem c9_transform_nonneg_witness :
    (0 ≤ (transform (mkRaw (some "delete") (some 0) none (some 2) none)
        (mkRaw (some "delete") (some 1) none (some 2) none)).1.position ∧
      0 ≤ (transform (mkRaw (some "delete") (some 0) none (some 2) none)
        (mkRaw (some "delete") (some 1) none (some 2) none)).1.length) ∧
    (0 ≤ (transform (mkRaw (some "delete") (some 0) none (some 2) none)
        (mkRaw (some "delete") (some 1) none (some 2) none)).2.position ∧
      0 ≤ (transform (mkRaw (some "delete") (some 0) none (some 2) none)
        (mkRaw (some "delete") (some 1) none (some 2) none)).2.length) :=
  c9_transform_nonneg _ _ (by decide) (by decide) (by decide) (by decide)

/-- C6: transform of two overlapping deletes.  When a starts first its
transform keeps its position and shrinks to the span before b, while b
moves to the position of a and shrinks by the overlap, saturating at 0;
when b starts first the outcome is symmetric. -/
theorem c6_overlapping_deletes (a b : Op)
    (ha : a.type = "delete") (hb : b.type = "delete")
    (h1 : b.position < a.position + a.length) (h2 : a.position < b.position + b.length) :
    (a.position < b.position →
      (transform a.toRaw b.toRaw).1 = { a with length := b.position - a.position } ∧
      (transform a.toRaw b.toRaw).2 = { b with
        position := a.position,
        length := max 0 (b.length - max 0 (min (a.position + a.length) (b.position + b.length) -
          max a.position b.position)) }) ∧
    (b.position < a.position →
      (transform a.toRaw b.toRaw).2 = { b with length := a.position - b.position } ∧
      (transform a.toRaw b.toRaw).1 = { a with
        position := b.position,
        length := max 0 (a.length - max 0 (min (a.position + a.length) (b.position + b.length) -
          max a.position b.position)) }) := by
  have hna : normalizeOperation a.toRaw = a := normalize_toRaw a (by rw [ha]; simp)
  have hnb : normalizeOperation b.toRaw = b := normalize_toRaw b (by rw [hb]; simp)
  have e1 : ¬(a.position + a.length ≤ b.position) := by omega
  have e2 : ¬(b.position + b.length ≤ a.position) := by omega
  have key : transform a.toRaw b.toRaw = handleOverlappingDeletes a b := by
    simp [transform, hna, hnb, transformOps, ha, hb, transformDeleteDelete, e1, e2]
  rw [key]
  simp only [handleOverlappingDeletes]
  constructor
  · intro hlt
    rw [if_pos hlt]
    exact ⟨rfl, rfl⟩
  · intro hlt
    rw [if_neg (show ¬(a.position < b.position) by omega)]
    exact ⟨rfl, rfl⟩

theorem c6_overlapping_deletes_witness :
    (transform (Op.mk "delete" 0 [] 3).toRaw (Op.mk "delete" 1 [] 3).toRaw).1 =
      { Op.mk "delete" 0 [] 3 with length := 1 - 0 } ∧
    (transform (Op.mk "delete" 0 [] 3).toRaw (Op.mk "delete" 1 [] 3).toRaw).2 =
      { Op.mk "delete" 1 [] 3 with
        position := 0,
        length := max 0 (3 - max 0 (min (0 + 3) (1 + 3) - max 0 1)) } :=
  (c6_overlapping_deletes (Op.mk "delete" 0 [] 3) (Op.mk "delete" 1 [] 3)
    rfl rfl (by decide) (by decide)).1 (by decide)

/-- Normalizing the row stored by Operation.objects.create gives the same
operation as normalizing the transformed dict it was read from, provided
the dict carried the type and position keys the create indexes. -/
theorem normalize_storedOp (r : RawOp) (ht : r.type.isSome) (hp : r.position.isSome) :
    normalizeOperation (storedOp r).toRaw = normalizeOperation r := by
  obtain ⟨t, ht⟩ := Option.isSome_iff_exists.mp ht
  obtain ⟨p, hp⟩ := Option.isSome_iff_exists.mp hp
  simp [normalizeOperation, storedOp, Op.toRaw, ht, hp]

/-- apply_operation depends on its operation argument only through
normalization. -/
theorem applyOperation_congr (C : List Char) (r s : RawOp)
    (h : normalizeOperation r = normalizeOperation s) :
    applyOperation C r = applyOperation C s := by
  simp [applyOperation, h]

/-- C2 counterexample: an operation that fails validation against the
current content length is still applied: content, version and log all
change, against the stated abort. -/
theorem c2_counterexample :
    validateOperation
        (foldTransform (mkRaw (some "insert") (some 100) (some ['X']) none (some 1))
          (pendingFor (HubState.mk ['a', 'b'] 1 [LogEntry.mk (Op.mk "insert" 0 ['a', 'b'] 2) 1 1]) 2 1))
        ((HubState.mk ['a', 'b'] 1 [LogEntry.mk (Op.mk "insert" 0 ['a', 'b'] 2) 1 1]).content.length : Int)
      = false ∧
    (submit (HubState.mk ['a', 'b'] 1 [LogEntry.mk (Op.mk "insert" 0 ['a', 'b'] 2) 1 1]) 2
        (mkRaw (some "insert") (some 100) (some ['X']) none (some 1))).state.content ≠
      (HubState.mk ['a', 'b'] 1 [LogEntry.mk (Op.mk "insert" 0 ['a', 'b'] 2) 1 1]).content ∧
    (submit (HubState.mk ['a', 'b'] 1 [LogEntry.mk (Op.mk "insert" 0 ['a', 'b'] 2) 1 1]) 2
        (mkRaw (some "insert") (some 100) (some ['X']) none (some 1))).state.version ≠
      (HubState.mk ['a', 'b'] 1 [LogEntry.mk (Op.mk "insert" 0 ['a', 'b'] 2) 1 1]).version ∧
    (submit (HubState.mk ['a', 'b'] 1 [LogEntry.mk (Op.mk "insert" 0 ['a', 'b'] 2) 1 1]) 2
        (mkRaw (some "insert") (some 100) (some ['X']) none (some 1))).state.log.length ≠
      (HubState.mk ['a', 'b'] 1 [LogEntry.mk (Op.mk "insert" 0 ['a', 'b'] 2) 1 1]).log.length := by
  decide

/-- C2 amended: the submit path never consults validate_operation; even
when the transformed operation fails validation against the current
content length, the operation is applied, the version incremented, the
log appended and the operation broadcast. -/
theorem c2_no_validation_mutates (st : HubState) (u : Int) (r : RawOp)
    (ht : (foldTransform r (pendingFor st u (r.clientVersion.getD st.version))).type.isSome = true)
    (hp : (foldTransform r (pendingFor st u (r.clientVersion.getD st.version))).position.isSome = true)
    (_hv : validateOperation (foldTransform r (pendingFor st u (r.clientVersion.getD st.version)))
      ((st.content.length : Int)) = false) :
    (submit st u r).state.content =
      applyOperation st.content (foldTransform r (pendingFor st u (r.clientVersion.getD st.version))) ∧
    (submit st u r).state.version = st.version + 1 ∧
    (submit st u r).state.log.length = st.log.length + 1 ∧
    (submit st u r).broadcast = true := by
  simp [submit, ht, hp]

theorem c2_no_validation_mutates_witness :
    (submit (HubState.mk ['a', 'b'] 1 [LogEntry.mk (Op.mk "insert" 0 ['a', 'b'] 2) 1 1]) 2
        (mkRaw (some "insert") (some 100) (some ['X']) none (some 1))).state.content =
      applyOperation (HubState.mk ['a', 'b'] 1 [LogEntry.mk (Op.mk "insert" 0 ['a', 'b'] 2) 1 1]).content
        (foldTransform (mkRaw (some "insert") (some 100) (some ['X']) none (some 1))
          (pendingFor (HubState.mk ['a', 'b'] 1 [LogEntry.mk (Op.mk "insert" 0 ['a', 'b'] 2) 1 1]) 2
            ((mkRaw (some "insert") (some 100) (some ['X']) none (some 1)).clientVersion.getD
              (HubState.mk ['a', 'b'] 1 [LogEntry.mk (Op.mk "insert" 0 ['a', 'b'] 2) 1 1]).version))) ∧
    (submit (HubState.mk ['a', 'b'] 1 [LogEntry.mk (Op.mk "insert" 0 ['a', 'b'] 2) 1 1]) 2
        (mkRaw (some "insert") (some 100) (some ['X']) none (some 1))).state.version =
      (HubState.mk ['a', 'b'] 1 [LogEntry.mk (Op.mk "insert" 0 ['a', 'b'] 2) 1 1]).version + 1 ∧
    (submit (HubState.mk ['a', 'b'] 1 [LogEntry.mk (Op.mk "insert" 0 ['a', 'b'] 2) 1 1]) 2
        (mkRaw (some "insert") (some 100) (some ['X']) none (some 1))).state.log.length =
      (HubState.mk ['a', 'b'] 1 [LogEntry.mk (Op.mk "insert" 0 ['a', 'b'] 2) 1 1]).log.length + 1 ∧
    (submit (HubState.mk ['a', 'b'] 1 [LogEntry.mk (Op.mk "insert" 0 ['a', 'b'] 2) 1 1]) 2
        (mkRaw (some "insert") (some 100) (some ['X']) none (some 1))).broadcast = true :=
  c2_no_validation_mutates _ 2 _ (by decide) (by decide) (by decide)

/-- Applying an operation whose normalized length is 0 leaves the content
unchanged: a length-0 insert has empty content, and a length-0 delete
excises an empty range. -/
theorem applyOperation_noop (C : List Char) (r : RawOp)
    (hz : (normalizeOperation r).length = 0) : applyOperation C r = C := by
  by_cases hi : (normalizeOperation r).type = "insert"
  · have hc : (normalizeOperation r).content = [] := by
      by_cases hfix : r.type.getD "retain" = "insert" ∧ r.length.getD 0 = 0
      · simp only [normalizeOperation, hfix, if_pos] at hz
        simp only [normalizeOperation, hfix, if_pos]
        simpa using hz
      · simp only [normalizeOperation, if_neg hfix] at hz hi
        exact absurd ⟨hi, hz⟩ hfix
    simp [applyOperation, hi, hc]
  · by_cases hd : (normalizeOperation r).type = "delete"
    · have key : ∀ pos : Int,
          max pos (min (pos + (normalizeOperation r).length) (C.length : Int)) ≤ pos := by
        intro pos
        rw [hz]
        omega
      simp only [applyOperation, hi, ite_false, if_neg, hd, if_pos]
      have hle : max (max 0 (min (normalizeOperation r).position (C.length : Int)))
          (min (max 0 (min (normalizeOperation r).position (C.length : Int)) +
            (normalizeOperation r).length) (C.length : Int)) =
          max 0 (min (normalizeOperation r).position (C.length : Int)) := by
        rw [hz]
        omega
      rw [hle]
      exact List.take_append_drop _ C
    · simp [applyOperation, hi, hd]

/-- C7 counterexample: a delete whose transformed length is 0 is a no-op,
yet the code increments the version, acks the incremented version rather
than the current one, and still broadcasts the operation. -/
theorem c7_counterexample :
    (normalizeOperation
        (foldTransform (mkRaw (some "delete") (some 0) none (some 0) (some 1))
          (pendingFor (HubState.mk ['a'] 1 [LogEntry.mk (Op.mk "insert" 0 ['a'] 1) 1 1]) 2 1))).length
      = 0 ∧
    (submit (HubState.mk ['a'] 1 [LogEntry.mk (Op.mk "insert" 0 ['a'] 1) 1 1]) 2
        (mkRaw (some "delete") (some 0) none (some 0) (some 1))).ackVersion = some 2 ∧
    (HubState.mk ['a'] 1 [LogEntry.mk (Op.mk "insert" 0 ['a'] 1) 1 1]).version = 1 ∧
    (submit (HubState.mk ['a'] 1 [LogEntry.mk (Op.mk "insert" 0 ['a'] 1) 1 1]) 2
        (mkRaw (some "delete") (some 0) none (some 0) (some 1))).broadcast = true := by
  decide

/-- C7 amended: an operation whose normalized length is 0 after the
transform fold receives no special treatment: the content is unchanged by
apply, yet the version is incremented, the no-op row is appended to the
log, the ack carries the incremented version, and the operation is
broadcast like any other. -/
theorem c7_noop_processed (st : HubState) (u : Int) (r : RawOp)
    (ht : (foldTransform r (pendingFor st u (r.clientVersion.getD st.version))).type.isSome = true)
    (hp : (foldTransform r (pendingFor st u (r.clientVersion.getD st.version))).position.isSome = true)
    (hz : (normalizeOperation (foldTransform r (pendingFor st u (r.clientVersion.getD st.version)))).length = 0) :
    submit st u r =
      SubmitResult.mk
        (HubState.mk st.content (st.version + 1)
          (st.log ++ [LogEntry.mk
            (storedOp (foldTransform r (pendingFor st u (r.clientVersion.getD st.version))))
            u (st.version + 1)]))
        true (some (st.version + 1)) := by
  have hc := applyOperation_noop st.content _ hz
  simp [submit, ht, hp, hc]

theorem c7_noop_processed_witness :
    submit (HubState.mk ['a'] 1 [LogEntry.mk (Op.mk "insert" 0 ['a'] 1) 1 1]) 2
        (mkRaw (some "delete") (some 0) none (some 0) (some 1)) =
      SubmitResult.mk
        (HubState.mk (HubState.mk ['a'] 1 [LogEntry.mk (Op.mk "insert" 0 ['a'] 1) 1 1]).content
          ((HubState.mk ['a'] 1 [LogEntry.mk (Op.mk "insert" 0 ['a'] 1) 1 1]).version + 1)
          ((HubState.mk ['a'] 1 [LogEntry.mk (Op.mk "insert" 0 ['a'] 1) 1 1]).log ++
            [LogEntry.mk
              (storedOp (foldTransform (mkRaw (some "delete") (some 0) none (some 0) (some 1))
                (pendingFor (HubState.mk ['a'] 1 [LogEntry.mk (Op.mk "insert" 0 ['a'] 1) 1 1]) 2
                  ((mkRaw (some "delete") (some 0) none (some 0) (some 1)).clientVersion.getD
                    (HubState.mk ['a'] 1 [LogEntry.mk (Op.mk "insert" 0 ['a'] 1) 1 1]).version))))
              2 ((HubState.mk ['a'] 1 [LogEntry.mk (Op.mk "insert" 0 ['a'] 1) 1 1]).version + 1)]))
        true (some ((HubState.mk ['a'] 1 [LogEntry.mk (Op.mk "insert" 0 ['a'] 1) 1 1]).version + 1)) :=
  c7_noop_processed _ 2 _ (by decide) (by decide) (by decide)

/-- A successful submit preserves the hub invariant: the version counts
the log rows and the content is the fold of apply over the log. -/
theorem submit_preserves_invariant (st : HubState) (u : Int) (r : RawOp)
    (hok : (submit st u r).broadcast = true)
    (hv : st.version = (st.log.length : Int))
    (hc : st.content = foldApply st.log) :
    (submit st u r).state.version = ((submit st u r).state.log.length : Int) ∧
    (submit st u r).state.content = foldApply (submit st u r).state.log := by
  set t := foldTransform r (pendingFor st u (r.clientVersion.getD st.version)) with htdef
  by_cases hT : t.type.isSome = true ∧ t.position.isSome = true
  · have hsub : submit st u r = SubmitResult.mk
        (HubState.mk (applyOperation st.content t) (st.version + 1)
          (st.log ++ [LogEntry.mk (storedOp t) u (st.version + 1)])) true
        (some (st.version + 1)) := by
      simp [submit, ← htdef, hT.1, hT.2]
    rw [hsub]
    constructor
    · simp [hv]
    · show applyOperation st.content t =
        foldApply (st.log ++ [LogEntry.mk (storedOp t) u (st.version + 1)])
      rw [foldApply, List.foldl_append]
      simp only [List.foldl_cons, List.foldl_nil]
      have hfold : List.foldl (fun c e => applyOperation c e.op.toRaw) [] st.log =
          foldApply st.log := rfl
      rw [hfold, ← hc]
      exact (applyOperation_congr st.content _ _ (normalize_storedOp t hT.1 hT.2)).symm
  · have hcond : (t.type.isSome && t.position.isSome) = false := by
      rcases Bool.eq_false_or_eq_true (t.type.isSome && t.position.isSome) with h | h
      · exact absurd (Bool.and_eq_true_iff.mp h) hT
      · exact h
    have hfail : (submit st u r).broadcast = false := by
      simp only [submit, ← htdef, hcond, Bool.false_eq_true, if_false]
    rw [hfail] at hok
    cases hok

/-- Running submits preserves the hub invariant when every submit
succeeds. -/
theorem runSubmits_invariant (ops : List (Int × RawOp)) (st : HubState)
    (hok : allOk st ops = true)
    (hv : st.version = (st.log.length : Int))
    (hc : st.content = foldApply st.log) :
    (runSubmits st ops).version = ((runSubmits st ops).log.length : Int) ∧
    (runSubmits st ops).content = foldApply (runSubmits st ops).log := by
  induction ops generalizing st with
  | nil => exact ⟨hv, hc⟩
  | cons p rest ih =>
      rw [allOk] at hok
      have h1 : (submit st p.1 p.2).broadcast = true := (Bool.and_eq_true_iff.mp hok).1
      have h2 : allOk (submit st p.1 p.2).state rest = true := (Bool.and_eq_true_iff.mp hok).2
      have step := submit_preserves_invariant st p.1 p.2 h1 hv hc
      exact ih (submit st p.1 p.2).state h2 step.1 step.2

/-- C3: after any sequence of successful submits starting from the empty
document at version 0, the version equals the number of log rows and the
content is the left fold of apply_operation over the logged transformed
operations starting from the empty string. -/
theorem c3_version_log_content (ops : List (Int × RawOp))
    (hok : allOk initState ops = true) :
    (runSubmits initState ops).version = ((runSubmits initState ops).log.length : Int) ∧
    (runSubmits initState ops).content = foldApply (runSubmits initState ops).log :=
  runSubmits_invariant ops initState hok rfl rfl

theorem c3_version_log_content_witness :
    (runSubmits initState
        [(1, mkRaw (some "insert") (some 0) (some ['h', 'i']) none none),
         (2, mkRaw (some "delete") (some 0) none (some 1) (some 0))]).version =
      ((runSubmits initState
        [(1, mkRaw (some "insert") (some 0) (some ['h', 'i']) none none),
         (2, mkRaw (some "delete") (some 0) none (some 1) (some 0))]).log.length : Int) ∧
    (runSubmits initState
        [(1, mkRaw (some "insert") (some 0) (some ['h', 'i']) none none),
         (2, mkRaw (some "delete") (some 0) none (some 1) (some 0))]).content =
      foldApply (runSubmits initState
        [(1, mkRaw (some "insert") (some 0) (some ['h', 'i']) none none),
         (2, mkRaw (some "delete") (some 0) none (some 1) (some 0))]).log :=
  c3_version_log_content _ (by decide)
